import Mathlib

/-!
Verification development for the unified-inbox message delivery and
scheduling engine.  The definitions below are a shallow embedding of the
TypeScript sources:

* `src/app/api/messages/scheduled/route.ts` (schedule POST, cancel DELETE,
  and the twilio-status callback POST),
* `src/app/api/messages/send/route.ts` (interactive send),
* `src/app/api/webhooks/twilio/route.ts` (inbound message webhook),
* `src/lib/webhook-security.ts` (WebhookRateLimiter),
* `src/lib/websocket.ts` (processScheduledMessages, the scheduler cycle),
* `src/lib/integrations/twilio.ts` (parseIncomingWebhook).

Database rows are lists of records, the prisma calls become list
operations, wall-clock times are natural numbers (milliseconds), and the
points where the runtime can fail (provider errors, process crash) are
explicit parameters.
-/

namespace UnifiedInbox

/-- Canonical message status enum of the prisma schema
(PENDING, SENT, DELIVERED, FAILED, READ). -/
inductive MessageStatus where
  | PENDING
  | SENT
  | DELIVERED
  | FAILED
  | READ
deriving DecidableEq, Repr

/-- Message channel enum (SMS, WHATSAPP, EMAIL), from
src/lib/integrations/twilio.ts. -/
inductive MessageChannel where
  | SMS
  | WHATSAPP
  | EMAIL
deriving DecidableEq, Repr

/-- Message direction enum (INBOUND, OUTBOUND). -/
inductive MessageDirection where
  | INBOUND
  | OUTBOUND
deriving DecidableEq, Repr

/-- Scheduled message status enum (PENDING, SENT, FAILED, CANCELLED). -/
inductive ScheduledStatus where
  | PENDING
  | SENT
  | FAILED
  | CANCELLED
deriving DecidableEq, Repr

/-- JavaScript truthiness of an optional string field: `undefined` and the
empty string are falsy, every other string is truthy. -/
def jsTruthy : Option String → Bool
  | none => false
  | some s => s ≠ ""

/-- JavaScript String.prototype.toLowerCase, written over the character
list (the same function as String.toLower, in a form proofs can
evaluate). -/
def jsToLowerCase (s : String) : String := String.mk (s.data.map Char.toLower)

/-- JavaScript String.prototype.startsWith, written over the character
list. -/
def jsStartsWith (s pre : String) : Bool := pre.data.isPrefixOf s.data

/-- JavaScript String.prototype.trim, written over the character list:
strip leading and trailing whitespace. -/
def jsTrim (s : String) : String :=
  String.mk (((s.data.dropWhile Char.isWhitespace).reverse.dropWhile
    Char.isWhitespace).reverse)

/-- Remove the first occurrence of a pattern from a character list. -/
def removeFirstAux (pat : List Char) : List Char → List Char
  | [] => []
  | c :: rest =>
    if pat.isPrefixOf (c :: rest) then (c :: rest).drop pat.length
    else c :: removeFirstAux pat rest

/-- JavaScript String.prototype.replace with a string pattern and an empty
replacement: remove only the first occurrence of the pattern. -/
def jsReplaceFirst (s pat : String) : String := String.mk (removeFirstAux pat.data s.data)

/-- JavaScript parseInt on a decimal string: the number denoted by the
leading digits, NaN (none) when there is no leading digit. -/
def jsParseInt (s : String) : Option Nat :=
  let digits := s.data.takeWhile Char.isDigit
  if digits.isEmpty then none
  else some (digits.foldl (fun n c => 10 * n + (c.toNat - 48)) 0)

/-- The metadata JSON column of a Message, restricted to the keys this
codebase ever writes: `scheduledMessageId` and `originalScheduledAt` are
written by the scheduler (src/lib/websocket.ts processScheduledMessages),
`errorCode`, `errorMessage`, `lastStatusUpdate` and `twilioStatus` by the
status callback (twilio-status POST). -/
structure MessageMetadata where
  scheduledMessageId : Option String := none
  originalScheduledAt : Option Nat := none
  errorCode : Option String := none
  errorMessage : Option String := none
  lastStatusUpdate : Option Nat := none
  twilioStatus : Option String := none
deriving DecidableEq, Repr

/-- A row of the Message table, restricted to the columns the engine
reads or writes. -/
structure Message where
  id : String
  contactId : String
  content : String
  channel : MessageChannel
  direction : MessageDirection
  status : MessageStatus
  mediaUrl : Option String := none
  twilioSid : Option String := none
  authorId : Option String := none
  metadata : MessageMetadata := {}
deriving DecidableEq, Repr

/-- A row of the ScheduledMessage table. -/
structure ScheduledMessage where
  id : String
  contactId : String
  authorId : String
  content : String
  channel : MessageChannel
  scheduledAt : Nat
  status : ScheduledStatus
deriving DecidableEq, Repr

/-- A row of the Contact table, restricted to the columns the engine
reads or writes. -/
structure Contact where
  id : String
  name : String
  phone : Option String := none
  email : Option String := none
  createdBy : String
deriving DecidableEq, Repr

/-! ### Status Reconciler: the twilio-status callback POST handler -/

/-- The parsed (url-encoded) form fields of a Twilio status callback that
the handler destructures: MessageSid, MessageStatus, ErrorCode,
ErrorMessage.  A `none` field was absent from the form body. -/
structure StatusCallbackPayload where
  messageSid : Option String := none
  messageStatus : Option String := none
  errorCode : Option String := none
  errorMessage : Option String := none
deriving DecidableEq, Repr

/-- The responses the twilio-status POST handler can produce:
429 when rate limited, 401 on a missing or invalid signature (thrown as
AppError and mapped in the catch block), 400 when MessageSid is missing,
200 with a not-found acknowledgment when no Message carries the sid, and
200 with the success body carrying old and new status. -/
inductive StatusCallbackResponse where
  | rateLimited
  | authError (code : String)
  | missingMessageSid
  | notFound
  | ok (messageId : String) (oldStatus newStatus : MessageStatus)
deriving DecidableEq, Repr

/-- The switch statement of the twilio-status POST handler mapping the
provider status vocabulary (lower-cased) to the canonical enum; the
default branch keeps the current status of the stored message. -/
def mapTwilioStatus (current : MessageStatus) (messageStatus : Option String) : MessageStatus :=
  match messageStatus with
  | none => current
  | some raw =>
    let s := jsToLowerCase raw
    if s = "accepted" then .PENDING
    else if s = "queued" then .PENDING
    else if s = "sending" then .SENT
    else if s = "sent" then .SENT
    else if s = "delivered" then .DELIVERED
    else if s = "failed" then .FAILED
    else if s = "undelivered" then .FAILED
    else if s = "read" then .READ
    else current

/-- The provider status strings the switch statement recognizes. -/
def recognizedTwilioStatuses : List String :=
  ["accepted", "queued", "sending", "sent", "delivered", "failed", "undelivered", "read"]

/-- The update the callback handler applies to the located message: the
mapped status always, and, when ErrorCode or ErrorMessage is truthy, the
spread metadata object with errorCode, errorMessage, lastStatusUpdate
(wall clock at update time) and twilioStatus. -/
def applyStatusUpdate (m : Message) (p : StatusCallbackPayload) (now : Nat) : Message :=
  let newStatus := mapTwilioStatus m.status p.messageStatus
  let base := { m with status := newStatus }
  if jsTruthy p.errorCode || jsTruthy p.errorMessage then
    { base with metadata := { base.metadata with
        errorCode := p.errorCode
        errorMessage := p.errorMessage
        lastStatusUpdate := some now
        twilioStatus := p.messageStatus } }
  else base

/-- prisma.message.findFirst where twilioSid = sid. -/
def findBySid (store : List Message) (sid : String) : Option Message :=
  store.find? (fun m => m.twilioSid == some sid)

/-- The twilio-status callback POST handler
(src/app/api/messages/scheduled/route.ts, third document).  `allowed` is
the result of webhookRateLimiter.isAllowed for the client ip, `sigPresent`
whether the x-twilio-signature header was sent, `sigValid` the result of
verifyTwilioWebhook.  Returns the response and the updated Message table. -/
def twilioStatusCallback (store : List Message) (allowed sigPresent sigValid : Bool)
    (p : StatusCallbackPayload) (now : Nat) : StatusCallbackResponse × List Message :=
  if !allowed then (.rateLimited, store)
  else if !sigPresent then (.authError "MISSING_SIGNATURE", store)
  else if !sigValid then (.authError "INVALID_SIGNATURE", store)
  else if !(jsTruthy p.messageSid) then (.missingMessageSid, store)
  else
    match findBySid store (p.messageSid.getD "") with
    | none => (.notFound, store)
    | some m =>
      let updated := applyStatusUpdate m p now
      (.ok m.id m.status updated.status,
        store.map (fun x => if x.id == m.id then updated else x))

/-! ### Channel Dispatcher: the interactive send POST handler -/

/-- The normalized provider acknowledgment returned by sendMessage in
src/lib/integrations/twilio.ts. -/
structure TwilioMessage where
  sid : String
  status : String
  errorCode : Option String := none
  errorMessage : Option String := none
deriving DecidableEq, Repr

/-- The provider acknowledgment statuses the send handler counts as
acceptance into the provider pipeline. -/
def sendAckStatuses : List String := ["accepted", "queued", "sending", "sent"]

/-- The initialStatus computation of the send POST handler
(src/app/api/messages/send/route.ts lines 77 to 96): PENDING by default;
for SMS and WHATSAPP, SENT exactly when Twilio returned a result whose
lower-cased status is accepted, queued, sending or sent. -/
def dispatchInitialStatus (channel : MessageChannel) (tw : Option TwilioMessage) : MessageStatus :=
  if channel = .SMS ∨ channel = .WHATSAPP then
    match tw with
    | some r => if sendAckStatuses.contains (jsToLowerCase r.status) then .SENT else .PENDING
    | none => .PENDING
  else .PENDING

/-- The Message row created by the send POST handler. -/
def sendCreatedMessage (freshId : String) (contactId content : String)
    (channel : MessageChannel) (mediaUrl : Option String) (authorId : String)
    (tw : Option TwilioMessage) : Message :=
  { id := freshId
    contactId := contactId
    content := content
    channel := channel
    direction := .OUTBOUND
    status := dispatchInitialStatus channel tw
    mediaUrl := mediaUrl
    twilioSid := tw.map (fun r => r.sid)
    authorId := some authorId }

/-- The development-only simulated delivery of the send POST handler
(lines 119 to 136): when NODE_ENV is development and the Twilio result
carries a sid, a timer updates the created Message to DELIVERED; the
status the row holds once the timer has fired. -/
def devSimulationFinalStatus (nodeEnv : String) (tw : Option TwilioMessage)
    (created : Message) : MessageStatus :=
  if nodeEnv = "development" ∧ jsTruthy (tw.map (fun r => r.sid)) then .DELIVERED
  else created.status

/-! ### Scheduler: processScheduledMessages in src/lib/websocket.ts -/

/-- How one iteration of the processScheduledMessages loop for a due row
ends.  The loop body awaits sendMessage, creates the Message row, then
updates the ScheduledMessage to SENT; a process crash can interrupt it at
either await boundary.  `dispatchFails` is sendMessage throwing (the catch
block marks the row FAILED); `crashBeforeCreate` kills the process after
dispatch but before prisma.message.create; `crashAfterCreate` kills it
after the create but before the ScheduledMessage update; `complete` is an
uninterrupted iteration. -/
inductive CycleEvent where
  | dispatchFails
  | crashBeforeCreate
  | crashAfterCreate (sid : String) (freshMessageId : String)
  | complete (sid : String) (freshMessageId : String)
deriving DecidableEq, Repr

/-- The scheduler state restricted to one ScheduledMessage and the Message
rows of the store. -/
structure SchedulerState where
  sm : ScheduledMessage
  messages : List Message
deriving DecidableEq, Repr

/-- The Message row processScheduledMessages creates for a due scheduled
message: OUTBOUND, status SENT, with the scheduled message id and original
scheduled time in the metadata. -/
def scheduledSendMessage (freshId : String) (sm : ScheduledMessage) (sid : String) : Message :=
  { id := freshId
    contactId := sm.contactId
    content := sm.content
    channel := sm.channel
    direction := .OUTBOUND
    status := .SENT
    twilioSid := some sid
    authorId := some sm.authorId
    metadata := { scheduledMessageId := some sm.id
                  originalScheduledAt := some sm.scheduledAt } }

/-- One scheduler cycle restricted to one ScheduledMessage: the prisma
query selects the row when it is PENDING and scheduledAt is at or before
now (otherwise the cycle is a no-op for it), then the loop body runs up to
the interruption point `ev`. -/
def schedulerCycle (now : Nat) (st : SchedulerState) (ev : CycleEvent) : SchedulerState :=
  if st.sm.status = .PENDING ∧ st.sm.scheduledAt ≤ now then
    match ev with
    | .dispatchFails => { st with sm := { st.sm with status := .FAILED } }
    | .crashBeforeCreate => st
    | .crashAfterCreate sid freshId =>
        { st with messages := st.messages ++ [scheduledSendMessage freshId st.sm sid] }
    | .complete sid freshId =>
        { sm := { st.sm with status := .SENT }
          messages := st.messages ++ [scheduledSendMessage freshId st.sm sid] }
  else st

/-- Any number of scheduler cycles (each possibly after a restart), given
as a list of cycle times paired with how far the loop body got. -/
def schedulerRun (st : SchedulerState) (cycles : List (Nat × CycleEvent)) : SchedulerState :=
  match cycles with
  | [] => st
  | (now, ev) :: rest => schedulerRun (schedulerCycle now st ev) rest

/-- The number of Message rows whose metadata references the given
ScheduledMessage id. -/
def countMessagesFor (messages : List Message) (smId : String) : Nat :=
  (messages.filter (fun m => m.metadata.scheduledMessageId == some smId)).length

/-! ### Webhook Guard: WebhookRateLimiter in src/lib/webhook-security.ts -/

/-- The per-identifier step of WebhookRateLimiter.isAllowed on the stored
timestamp list: drop entries outside the window, reject (without writing
back) when the remaining count reaches maxRequests, otherwise append the
current time and store the result. -/
def isAllowedList (maxRequests windowMs : Nat) (requests : List Nat) (now : Nat) :
    Bool × List Nat :=
  let validRequests := requests.filter (fun time => now - time < windowMs)
  if maxRequests ≤ validRequests.length then (false, requests)
  else (true, validRequests ++ [now])

/-- The WebhookRateLimiter class: maxRequests and windowMs fixed at
construction, and the requests map keyed by client identifier. -/
structure WebhookRateLimiter where
  maxRequests : Nat
  windowMs : Nat
  requests : String → List Nat

/-- The exported webhookRateLimiter instance, built with the constructor
defaults of 100 requests per 60000 ms and an empty map. -/
def webhookRateLimiter : WebhookRateLimiter :=
  { maxRequests := 100, windowMs := 60000, requests := fun _ => [] }

/-- WebhookRateLimiter.isAllowed: reads the timestamp list of the
identifier (empty when absent), applies the windowed check, and writes the
updated list back only on success. -/
def WebhookRateLimiter.isAllowed (rl : WebhookRateLimiter) (identifier : String)
    (now : Nat) : Bool × WebhookRateLimiter :=
  let r := isAllowedList rl.maxRequests rl.windowMs (rl.requests identifier) now
  (r.1, if r.1 then
    { rl with requests := fun i => if i = identifier then r.2 else rl.requests i }
  else rl)

/-- A sequence of isAllowed calls for one identifier at the given times,
returning the results in order and the final limiter state. -/
def runIsAllowedCalls (rl : WebhookRateLimiter) (identifier : String) (times : List Nat) :
    List Bool × WebhookRateLimiter :=
  match times with
  | [] => ([], rl)
  | t :: rest =>
    let r := rl.isAllowed identifier t
    let rr := runIsAllowedCalls r.2 identifier rest
    (r.1 :: rr.1, rr.2)

/-- The list-level view of a sequence of isAllowed calls for one
identifier: the same recursion as runIsAllowedCalls, on the timestamp
list of that identifier alone. -/
def runIsAllowedList (maxRequests windowMs : Nat) (reqs : List Nat) (times : List Nat) :
    List Bool × List Nat :=
  match times with
  | [] => ([], reqs)
  | t :: rest =>
    let r := isAllowedList maxRequests windowMs reqs t
    let rr := runIsAllowedList maxRequests windowMs r.2 rest
    (r.1 :: rr.1, rr.2)

/-! ### Inbound message webhook: src/app/api/webhooks/twilio/route.ts -/

/-- The form fields of an inbound Twilio webhook that the handler and
parseIncomingWebhook read.  Field names mirror the form keys MessageSid,
From, To, Body, NumMedia, MediaUrl0..MediaUrl4; a `none` field was absent
from the body. -/
structure InboundWebhookData where
  messageSid : Option String := none
  fromField : Option String := none
  toField : Option String := none
  bodyField : Option String := none
  numMedia : Option String := none
  mediaUrl0 : Option String := none
  mediaUrl1 : Option String := none
  mediaUrl2 : Option String := none
  mediaUrl3 : Option String := none
  mediaUrl4 : Option String := none
deriving DecidableEq, Repr

/-- The result of parseIncomingWebhook in src/lib/integrations/twilio.ts. -/
structure IncomingMessage where
  fromAddr : String
  toAddr : String
  body : String
  messageSid : String
  mediaUrls : List String
  channel : MessageChannel
deriving DecidableEq, Repr

/-- parseIncomingWebhook: the channel is WHATSAPP when To starts with the
whatsapp prefix, the whatsapp prefix is stripped from From and To, Body
defaults to the empty string, and the MediaUrlI fields present among the
first parseInt NumMedia indices are collected. -/
def parseIncomingWebhook (d : InboundWebhookData) : IncomingMessage :=
  let fromRaw := d.fromField.getD ""
  let toRaw := d.toField.getD ""
  let channel : MessageChannel :=
    if jsStartsWith toRaw "whatsapp:" then .WHATSAPP else .SMS
  let numMediaVal := (jsParseInt (d.numMedia.getD "")).getD 0
  let mediaUrls :=
    if jsTruthy d.numMedia ∧ 0 < numMediaVal then
      ((List.take numMediaVal
        [d.mediaUrl0, d.mediaUrl1, d.mediaUrl2, d.mediaUrl3, d.mediaUrl4]).filterMap id)
    else []
  { fromAddr := jsReplaceFirst fromRaw "whatsapp:"
    toAddr := jsReplaceFirst toRaw "whatsapp:"
    body := d.bodyField.getD ""
    messageSid := d.messageSid.getD ""
    mediaUrls := mediaUrls
    channel := channel }

/-- The Contact and Message tables the inbound webhook reads and writes. -/
structure InboundStore where
  contacts : List Contact
  messages : List Message
deriving DecidableEq, Repr

/-- The responses of the inbound webhook POST: 429 when rate limited, 401
on missing or invalid signature, and the empty TwiML acknowledgment with
status 200 otherwise (the catch block answers schema failures with the
same 200 body to avoid provider retries). -/
inductive InboundResponse where
  | rateLimited
  | authError (code : String)
  | xmlOk
deriving DecidableEq, Repr

/-- The Message row the inbound webhook stores: INBOUND, DELIVERED, first
media url if any, provider sid attached. -/
def inboundMessage (freshMessageId contactId : String) (incoming : IncomingMessage) : Message :=
  { id := freshMessageId
    contactId := contactId
    content := incoming.body
    channel := incoming.channel
    direction := .INBOUND
    status := .DELIVERED
    mediaUrl := incoming.mediaUrls.head?
    twilioSid := some incoming.messageSid }

/-- The inbound webhook POST handler: rate limit, signature checks, zod
schema validation (twilioWebhookSchema requires the MessageSid, From and
To keys), then find-or-create the contact by phone number and store the
incoming message.  `freshContactId` and `freshMessageId` stand for the ids
prisma generates. -/
def twilioInboundWebhook (store : InboundStore) (allowed sigPresent sigValid : Bool)
    (d : InboundWebhookData) (freshContactId freshMessageId : String) :
    InboundResponse × InboundStore :=
  if !allowed then (.rateLimited, store)
  else if !sigPresent then (.authError "MISSING_SIGNATURE", store)
  else if !sigValid then (.authError "INVALID_SIGNATURE", store)
  else if !(d.messageSid.isSome && d.fromField.isSome && d.toField.isSome) then
    (.xmlOk, store)
  else
    let incoming := parseIncomingWebhook d
    match store.contacts.find? (fun c => c.phone == some incoming.fromAddr) with
    | some c =>
      (.xmlOk, { store with
        messages := store.messages ++ [inboundMessage freshMessageId c.id incoming] })
    | none =>
      let c : Contact :=
        { id := freshContactId
          name := "Unknown (" ++ incoming.fromAddr ++ ")"
          phone := some incoming.fromAddr
          createdBy := "system" }
      (.xmlOk,
        { contacts := store.contacts ++ [c]
          messages := store.messages ++ [inboundMessage freshMessageId c.id incoming] })

/-! ### Schedule API: the schedule POST handler -/

/-- The request body of the schedule POST, with the scheduledAt timestamp
already parsed (a `none` field was absent or empty, which is falsy in the
missing-fields check).  The channel is one of the enum values as the data
model requires. -/
structure ScheduleRequest where
  contactId : Option String := none
  content : Option String := none
  channel : Option MessageChannel := none
  scheduledAt : Option Nat := none
deriving DecidableEq, Repr

/-- Modelled from the spec: the prisma schema file declaring the
ScheduledMessage model (and the default of its status column, which the
schedule POST create relies on by passing no status) is not among the
sources; the spec states the scheduling response is the created row with
status PENDING, so the column default is PENDING. -/
def scheduledMessageDefaultStatus : ScheduledStatus := .PENDING

/-- The responses of the schedule POST handler: 400 on missing fields, 400
when the scheduled time is not strictly in the future, 404 when the
contact does not exist for the user, 201 with the created row. -/
inductive ScheduleResponse where
  | missingFields
  | notInFuture
  | contactNotFound
  | created (sm : ScheduledMessage)
deriving DecidableEq, Repr

/-- The schedule POST handler (src/app/api/messages/scheduled/route.ts
lines 67 to 120), for an authenticated user: reject with 400 when any of
contactId, content, channel, scheduledAt is falsy, reject with 400 when
the scheduled date is not strictly after now, reject with 404 when no
contact with that id belongs to the user, otherwise create the row with
trimmed content and the status column default. -/
def scheduleMessagePost (store : List ScheduledMessage) (contacts : List Contact)
    (userId : String) (req : ScheduleRequest) (now : Nat) (freshId : String) :
    ScheduleResponse × List ScheduledMessage :=
  if !(jsTruthy req.contactId && jsTruthy req.content
      && req.channel.isSome && req.scheduledAt.isSome) then
    (.missingFields, store)
  else
    let scheduledDate := req.scheduledAt.getD 0
    if scheduledDate ≤ now then (.notInFuture, store)
    else
      let contactId := req.contactId.getD ""
      match contacts.find? (fun c => c.id == contactId && c.createdBy == userId) with
      | none => (.contactNotFound, store)
      | some _ =>
        let sm : ScheduledMessage :=
          { id := freshId
            contactId := contactId
            authorId := userId
            content := jsTrim (req.content.getD "")
            channel := req.channel.getD .SMS
            scheduledAt := scheduledDate
            status := scheduledMessageDefaultStatus }
        (.created sm, store ++ [sm])

/-! ### Cancel Scheduled API: the DELETE handler -/

/-- The responses of the cancel DELETE handler: 404 when no pending row
with that id belongs to the user, 200 success otherwise. -/
inductive CancelResponse where
  | notFound
  | success
deriving DecidableEq, Repr

/-- The cancel DELETE handler (second document of
src/app/api/messages/scheduled/route.ts): findFirst for the row with the
given id, owned by the user and still PENDING; 404 when absent, otherwise
update the row with that id to CANCELLED. -/
def cancelScheduledMessage (store : List ScheduledMessage) (userId id : String) :
    CancelResponse × List ScheduledMessage :=
  match store.find? (fun sm =>
      sm.id == id && sm.authorId == userId && sm.status == ScheduledStatus.PENDING) with
  | none => (.notFound, store)
  | some _ =>
    (.success, store.map (fun sm =>
      if sm.id == id then { sm with status := .CANCELLED } else sm))

/-! ## Theorems -/

/-- The default branch of the status switch keeps the current status:
any provider status string outside the recognized vocabulary is a no-op
on the status. -/
theorem mapTwilioStatus_unrecognized (cur : MessageStatus) (s : String)
    (h : jsToLowerCase s ∉ recognizedTwilioStatuses) :
    mapTwilioStatus cur (some s) = cur := by
  simp only [recognizedTwilioStatuses, List.mem_cons, List.not_mem_nil, or_false,
    not_or] at h
  obtain ⟨h1, h2, h3, h4, h5, h6, h7, h8⟩ := h
  simp [mapTwilioStatus, h1, h2, h3, h4, h5, h6, h7, h8]

/-- Mapping the same provider status twice gives the same canonical
status: the mapped value of a recognized string does not depend on the
current status, and unrecognized strings are no-ops. -/
theorem mapTwilioStatus_idem (cur : MessageStatus) (ms : Option String) :
    mapTwilioStatus (mapTwilioStatus cur ms) ms = mapTwilioStatus cur ms := by
  cases ms with
  | none => rfl
  | some raw =>
    simp only [mapTwilioStatus]
    split_ifs <;> rfl

/-- The update applied by the callback always carries the mapped status,
whether or not error metadata is attached. -/
theorem applyStatusUpdate_status (m : Message) (p : StatusCallbackPayload) (now : Nat) :
    (applyStatusUpdate m p now).status = mapTwilioStatus m.status p.messageStatus := by
  unfold applyStatusUpdate
  split <;> rfl

/-- The update applied by the callback does not touch the provider sid. -/
theorem applyStatusUpdate_twilioSid (m : Message) (p : StatusCallbackPayload) (now : Nat) :
    (applyStatusUpdate m p now).twilioSid = m.twilioSid := by
  unfold applyStatusUpdate
  split <;> rfl

/-- The update applied by the callback does not touch the row id. -/
theorem applyStatusUpdate_id (m : Message) (p : StatusCallbackPayload) (now : Nat) :
    (applyStatusUpdate m p now).id = m.id := by
  unfold applyStatusUpdate
  split <;> rfl

/-- C1 (counterexample): a stored Message in status DELIVERED that
receives an authenticated status callback with status queued does not
stay DELIVERED: the reconciliation maps queued to PENDING and applies it,
so the stored status regresses to PENDING. -/
theorem delivered_regresses_on_queued_callback :
    ((twilioStatusCallback
        [{ id := "m1", contactId := "c1", content := "hi", channel := .SMS,
           direction := .OUTBOUND, status := .DELIVERED, twilioSid := some "SM1" }]
        true true true
        { messageSid := some "SM1", messageStatus := some "queued" } 5).2.map
      Message.status) = [.PENDING] := by decide

/-- C1 (amended): reconciliation is last-write-wins on the status: the
switch maps the provider status to the canonical enum without consulting
the stored status, so a queued callback moves any message, DELIVERED and
FAILED included, back to PENDING; only a provider status outside the
recognized vocabulary leaves the stored status unchanged. -/
theorem reconciliation_is_last_write_wins :
    (∀ cur : MessageStatus, mapTwilioStatus cur (some "queued") = .PENDING) ∧
    (∀ (cur : MessageStatus) (s : String), jsToLowerCase s ∉ recognizedTwilioStatuses →
      mapTwilioStatus cur (some s) = cur) := by
  constructor
  · intro cur
    cases cur <;> decide
  · exact mapTwilioStatus_unrecognized

/-- Witness for the amended C1 theorem at concrete inputs. -/
theorem reconciliation_is_last_write_wins_witness :
    mapTwilioStatus .DELIVERED (some "queued") = .PENDING ∧
    mapTwilioStatus .DELIVERED (some "bogus") = .DELIVERED :=
  ⟨reconciliation_is_last_write_wins.1 .DELIVERED,
   reconciliation_is_last_write_wins.2 .DELIVERED "bogus" (by decide)⟩

/-- A message returned by findBySid is in the store and carries the sid. -/
theorem findBySid_mem (store : List Message) (sid : String) (m : Message)
    (h : findBySid store sid = some m) : m ∈ store ∧ m.twilioSid = some sid := by
  unfold findBySid at h
  refine ⟨List.mem_of_find?_eq_some h, ?_⟩
  have := List.find?_some h
  simpa using this

/-- C5: an authenticated callback whose provider status string is outside
the recognized vocabulary leaves the stored status of every Message
unchanged: the default switch branch writes back the current status. -/
theorem unrecognized_status_callback_is_noop (store : List Message)
    (p : StatusCallbackPayload) (now : Nat) (s : String)
    (hs : p.messageStatus = some s)
    (hu : jsToLowerCase s ∉ recognizedTwilioStatuses)
    (hids : (store.map Message.id).Nodup) :
    ((twilioStatusCallback store true true true p now).2.map Message.status)
      = store.map Message.status := by
  unfold twilioStatusCallback
  simp only [Bool.not_true, Bool.false_eq_true, if_false]
  by_cases htr : jsTruthy p.messageSid = true
  · simp only [htr, Bool.not_true, Bool.false_eq_true, if_false]
    cases hf : findBySid store (p.messageSid.getD "") with
    | none => simp
    | some m =>
      simp only
      obtain ⟨hmem, -⟩ := findBySid_mem store _ m hf
      have hinj := List.inj_on_of_nodup_map hids
      rw [List.map_map]
      apply List.map_congr_left
      intro x hx
      simp only [Function.comp_apply]
      by_cases hxid : (x.id == m.id) = true
      · have hxm : x = m := hinj hx hmem (by simpa using hxid)
        subst hxm
        simp only [hxid, if_true, applyStatusUpdate_status, hs]
        exact mapTwilioStatus_unrecognized x.status s hu
      · simp [hxid]
  · simp [htr]

/-- Witness for the C5 theorem at concrete inputs. -/
theorem unrecognized_status_callback_is_noop_witness :
    ((twilioStatusCallback
        [{ id := "m1", contactId := "c1", content := "hi", channel := .SMS,
           direction := .OUTBOUND, status := .DELIVERED, twilioSid := some "SM1" }]
        true true true
        { messageSid := some "SM1", messageStatus := some "paused" } 7).2.map
      Message.status)
      = [{ id := "m1", contactId := "c1", content := "hi", channel := MessageChannel.SMS,
           direction := .OUTBOUND, status := .DELIVERED,
           twilioSid := some "SM1" : Message }].map Message.status :=
  unrecognized_status_callback_is_noop
    [{ id := "m1", contactId := "c1", content := "hi", channel := .SMS,
       direction := .OUTBOUND, status := .DELIVERED, twilioSid := some "SM1" }]
    { messageSid := some "SM1", messageStatus := some "paused" } 7 "paused"
    rfl (by decide) (by decide)

/-- Applying the same callback update twice is the same as applying it
once at the later time: the status mapping is idempotent and the error
metadata keys are overwritten wholesale. -/
theorem applyStatusUpdate_idem (m : Message) (p : StatusCallbackPayload) (t1 t2 : Nat) :
    applyStatusUpdate (applyStatusUpdate m p t1) p t2 = applyStatusUpdate m p t2 := by
  cases m with
  | mk id contactId content channel direction status mediaUrl twilioSid authorId metadata =>
    cases metadata
    by_cases h : (jsTruthy p.errorCode || jsTruthy p.errorMessage) = true <;>
      simp [applyStatusUpdate, h, mapTwilioStatus_idem]

/-- After replacing, by row id, the message located by findBySid with a
record carrying the same provider sid, findBySid locates that record. -/
theorem findBySid_after_replace (store : List Message) (sid : String) (m u : Message)
    (hf : findBySid store sid = some m) (hu : u.twilioSid = m.twilioSid) :
    findBySid (store.map (fun x => if x.id == m.id then u else x)) sid = some u := by
  unfold findBySid at hf ⊢
  have hpu : (u.twilioSid == some sid) = true := by
    have hpm := List.find?_some hf
    rw [hu]
    exact hpm
  induction store with
  | nil => simp at hf
  | cons x rest ih =>
    rw [List.map_cons, List.find?_cons]
    by_cases hpx : (x.twilioSid == some sid) = true
    · have hxm : m = x := by
        rw [List.find?_cons, hpx] at hf
        exact Option.some_inj.mp hf.symm
      subst hxm
      have hhead : (if (m.id == m.id) = true then u else m) = u := by simp
      rw [hhead, hpu]
    · have hpxf : (x.twilioSid == some sid) = false := by
        simpa using hpx
      have hf' : List.find? (fun y => y.twilioSid == some sid) rest = some m := by
        rw [List.find?_cons, hpxf] at hf
        exact hf
      by_cases hxid : (x.id == m.id) = true
      · have hhead : (if (x.id == m.id) = true then u else x) = u := by
          simp [hxid]
        rw [hhead, hpu]
      · have hhead : (if (x.id == m.id) = true then u else x) = x := by
          simp [hxid]
        rw [hhead, hpxf]
        exact ih hf'

/-- C3: reconciliation is idempotent.  For every Message store and every
callback payload passing the rate limit and signature checks, running the
status callback a second time (at any later wall clock) leaves the store
exactly as a single run at that time would, the second run answers no
authentication error, and when the first run reconciled a message (the
200 success response) the second run reconciles it again to the same
status without error. -/
theorem reconcile_twice_same_state (store : List Message) (p : StatusCallbackPayload)
    (t1 t2 : Nat) :
    (twilioStatusCallback (twilioStatusCallback store true true true p t1).2
        true true true p t2).2
      = (twilioStatusCallback store true true true p t2).2 ∧
    (∀ c, (twilioStatusCallback (twilioStatusCallback store true true true p t1).2
        true true true p t2).1 ≠ .authError c) ∧
    (∀ i o n, (twilioStatusCallback store true true true p t1).1 = .ok i o n →
      (twilioStatusCallback (twilioStatusCallback store true true true p t1).2
        true true true p t2).1 = .ok i n n) := by
  by_cases htr : jsTruthy p.messageSid = true
  · cases hf : findBySid store (p.messageSid.getD "") with
    | none =>
      unfold twilioStatusCallback
      simp [htr, hf]
    | some m =>
      have hfind2 : findBySid
          (store.map (fun x => if x.id == m.id then applyStatusUpdate m p t1 else x))
          (p.messageSid.getD "") = some (applyStatusUpdate m p t1) :=
        findBySid_after_replace store _ m _ hf (applyStatusUpdate_twilioSid m p t1)
      unfold twilioStatusCallback
      simp only [htr, Bool.not_true, Bool.false_eq_true, if_false, Bool.not_false,
        if_true, hf, hfind2]
      refine ⟨?_, ?_, ?_⟩
      · rw [List.map_map]
        apply List.map_congr_left
        intro x hx
        simp only [Function.comp_apply, applyStatusUpdate_id]
        by_cases hxid : (x.id == m.id) = true
        · simp [hxid, applyStatusUpdate_idem, applyStatusUpdate_id]
        · simp [hxid]
      · intro c
        simp
      · intro i o n h
        simp only [StatusCallbackResponse.ok.injEq] at h
        obtain ⟨hi, ho, hn⟩ := h
        subst hi
        subst hn
        simp [applyStatusUpdate_id, applyStatusUpdate_status, mapTwilioStatus_idem]
  · unfold twilioStatusCallback
    simp [htr]

/-- Witness for the C3 theorem: a concrete store with one SENT message
and a delivered callback, reconciled twice. -/
theorem reconcile_twice_same_state_witness :
    (twilioStatusCallback
      (twilioStatusCallback
        [{ id := "m1", contactId := "c1", content := "hi", channel := .SMS,
           direction := .OUTBOUND, status := .SENT, twilioSid := some "SM1" }]
        true true true
        { messageSid := some "SM1", messageStatus := some "delivered" } 1).2
      true true true
      { messageSid := some "SM1", messageStatus := some "delivered" } 2).1
      = .ok "m1" .DELIVERED .DELIVERED :=
  (reconcile_twice_same_state
    [{ id := "m1", contactId := "c1", content := "hi", channel := .SMS,
       direction := .OUTBOUND, status := .SENT, twilioSid := some "SM1" }]
    { messageSid := some "SM1", messageStatus := some "delivered" } 1 2).2.2
    "m1" .SENT .DELIVERED (by decide)

/-- Counting messages that reference a scheduled message distributes over
append. -/
theorem countMessagesFor_append (msgs ms : List Message) (smId : String) :
    countMessagesFor (msgs ++ ms) smId
      = countMessagesFor msgs smId + countMessagesFor ms smId := by
  unfold countMessagesFor
  rw [List.filter_append, List.length_append]

/-- The Message row the scheduler creates references its scheduled
message. -/
theorem countMessagesFor_scheduledSendMessage (fid : String) (sm : ScheduledMessage)
    (sid : String) :
    countMessagesFor [scheduledSendMessage fid sm sid] sm.id = 1 := by
  simp [countMessagesFor, scheduledSendMessage]

/-- Invariant of the scheduler loop in the absence of a crash between the
Message creation and the SENT update: while the ScheduledMessage is
PENDING no Message references it, and never do two. -/
theorem schedulerRun_invariant (cycles : List (Nat × CycleEvent)) (st : SchedulerState)
    (hnc : ∀ c ∈ cycles, ∀ sid fid, c.2 ≠ CycleEvent.crashAfterCreate sid fid)
    (h0 : st.sm.status = .PENDING → countMessagesFor st.messages st.sm.id = 0)
    (h1 : countMessagesFor st.messages st.sm.id ≤ 1) :
    countMessagesFor (schedulerRun st cycles).messages (schedulerRun st cycles).sm.id ≤ 1 ∧
    (schedulerRun st cycles).sm.id = st.sm.id := by
  induction cycles generalizing st with
  | nil => exact ⟨h1, rfl⟩
  | cons c rest ih =>
    obtain ⟨now, ev⟩ := c
    simp only [schedulerRun]
    have hrest : ∀ c ∈ rest, ∀ sid fid, c.2 ≠ CycleEvent.crashAfterCreate sid fid :=
      fun c hc => hnc c (List.mem_cons_of_mem _ hc)
    by_cases hg : (st.sm.status = .PENDING ∧ st.sm.scheduledAt ≤ now)
    · cases ev with
      | dispatchFails =>
        have hcy : schedulerCycle now st .dispatchFails
            = { st with sm := { st.sm with status := .FAILED } } := by
          simp [schedulerCycle, hg]
        rw [hcy]
        have hid := ih { st with sm := { st.sm with status := .FAILED } }
          hrest (by simp) (by simpa using h1)
        simpa using hid
      | crashBeforeCreate =>
        have hcy : schedulerCycle now st .crashBeforeCreate = st := by
          simp [schedulerCycle, hg]
        rw [hcy]
        exact ih st hrest h0 h1
      | crashAfterCreate sid fid =>
        exact absurd rfl (hnc (now, .crashAfterCreate sid fid) (List.mem_cons_self _ _) sid fid)
      | complete sid fid =>
        have hcy : schedulerCycle now st (.complete sid fid)
            = { sm := { st.sm with status := .SENT }
                messages := st.messages ++ [scheduledSendMessage fid st.sm sid] } := by
          simp [schedulerCycle, hg]
        rw [hcy]
        have hcount : countMessagesFor
            (st.messages ++ [scheduledSendMessage fid st.sm sid]) st.sm.id = 1 := by
          rw [countMessagesFor_append, countMessagesFor_scheduledSendMessage, h0 hg.1]
        have hid := ih { sm := { st.sm with status := .SENT }
                         messages := st.messages ++ [scheduledSendMessage fid st.sm sid] }
          hrest (by simp) (by simpa using Nat.le_of_eq hcount)
        simpa using hid
    · have hcy : schedulerCycle now st ev = st := by
        cases ev <;> simp [schedulerCycle, hg]
      rw [hcy]
      exact ih st hrest h0 h1

/-- C2 (counterexample): a crash between the Message creation and the
SENT update of the ScheduledMessage leaves the row PENDING, so the next
cycle sends again: two Message rows referencing the same ScheduledMessage
exist (no repair pass treats a PENDING row with a sent Message as SENT). -/
theorem crash_between_create_and_mark_duplicates_send :
    countMessagesFor (schedulerRun
      ⟨{ id := "s1", contactId := "c1", authorId := "u1", content := "x",
         channel := .SMS, scheduledAt := 0, status := .PENDING }, []⟩
      [(1, .crashAfterCreate "SA" "ma"), (2, .complete "SB" "mb")]).messages "s1" = 2 := by
  decide

/-- C2 (amended): across any number of scheduler cycles in which no crash
falls between the Message creation and the SENT update, at most one
Message referencing the ScheduledMessage is ever created; a crash inside
that window voids the guarantee, since no reconciliation pass repairs a
PENDING row that already has a sent Message. -/
theorem scheduler_at_most_one_send_without_midcrash (sm : ScheduledMessage)
    (cycles : List (Nat × CycleEvent))
    (hnc : ∀ c ∈ cycles, ∀ sid fid, c.2 ≠ CycleEvent.crashAfterCreate sid fid) :
    countMessagesFor (schedulerRun ⟨sm, []⟩ cycles).messages sm.id ≤ 1 := by
  have hinv := schedulerRun_invariant cycles ⟨sm, []⟩ hnc
    (fun _ => rfl) (by simp [countMessagesFor])
  have hid : (schedulerRun ⟨sm, []⟩ cycles).sm.id = sm.id := hinv.2
  rw [← hid]
  exact hinv.1

/-- Witness for the amended C2 theorem: two crash-free cycles on one
scheduled message. -/
theorem scheduler_at_most_one_send_without_midcrash_witness :
    countMessagesFor (schedulerRun
      ⟨{ id := "s1", contactId := "c1", authorId := "u1", content := "x",
         channel := .SMS, scheduledAt := 0, status := .PENDING }, []⟩
      [(1, .complete "SA" "ma"), (2, .complete "SB" "mb")]).messages "s1" ≤ 1 :=
  scheduler_at_most_one_send_without_midcrash
    { id := "s1", contactId := "c1", authorId := "u1", content := "x",
      channel := .SMS, scheduledAt := 0, status := .PENDING }
    [(1, .complete "SA" "ma"), (2, .complete "SB" "mb")]
    (by
      intro c hc sid fid
      rcases List.mem_cons.mp hc with h | h
      · subst h
        simp
      · rcases List.mem_cons.mp h with h2 | h2
        · subst h2
          simp
        · simp at h2)

/-- C4 (counterexample): in development mode the dispatch path itself
transitions the Message to DELIVERED: a valid SMS send acknowledged with
queued creates the row as SENT, and the simulated-delivery timer of the
send handler then updates it to DELIVERED without any reconciler
involvement. -/
theorem dev_simulation_transitions_to_delivered :
    (sendCreatedMessage "m1" "c1" "hi" .SMS none "u1"
        (some { sid := "SM1", status := "queued" })).status = .SENT ∧
    devSimulationFinalStatus "development" (some { sid := "SM1", status := "queued" })
        (sendCreatedMessage "m1" "c1" "hi" .SMS none "u1"
          (some { sid := "SM1", status := "queued" })) = .DELIVERED := by
  constructor
  · decide
  · decide

/-- C4 (amended): for a valid interactive SMS or WHATSAPP send, the
Message row is created SENT exactly when the lower-cased provider
acknowledgment is accepted, queued, sending or sent, and PENDING
otherwise; the row is never created DELIVERED, and outside development
mode the dispatch path never moves it to DELIVERED, but in development
mode, when the provider returned a sid, the handler itself simulates
delivery and updates the row to DELIVERED. -/
theorem dispatch_status_mapping (channel : MessageChannel) (r : TwilioMessage)
    (nodeEnv : String) (m : Message)
    (hch : channel = .SMS ∨ channel = .WHATSAPP) :
    (dispatchInitialStatus channel (some r) = .SENT
      ↔ jsToLowerCase r.status ∈ sendAckStatuses) ∧
    (dispatchInitialStatus channel (some r) = .SENT
      ∨ dispatchInitialStatus channel (some r) = .PENDING) ∧
    (nodeEnv ≠ "development" → devSimulationFinalStatus nodeEnv (some r) m = m.status) ∧
    (jsTruthy (some r.sid) = true →
      devSimulationFinalStatus "development" (some r) m = .DELIVERED) := by
  have hshape : dispatchInitialStatus channel (some r)
      = if sendAckStatuses.contains (jsToLowerCase r.status) = true
        then MessageStatus.SENT else MessageStatus.PENDING := by
    unfold dispatchInitialStatus
    rw [if_pos hch]
  refine ⟨?_, ?_, ?_, ?_⟩
  · rw [hshape]
    by_cases hc : sendAckStatuses.contains (jsToLowerCase r.status) = true
    · rw [if_pos hc]
      exact iff_of_true rfl (List.mem_of_elem_eq_true hc)
    · rw [if_neg hc]
      refine iff_of_false (by decide) ?_
      intro hmem
      exact hc (List.elem_eq_true_of_mem hmem)
  · rw [hshape]
    by_cases hc : sendAckStatuses.contains (jsToLowerCase r.status) = true
    · left
      rw [if_pos hc]
    · right
      rw [if_neg hc]
  · intro hne
    unfold devSimulationFinalStatus
    rw [if_neg]
    intro hcon
    exact hne hcon.1
  · intro hsid
    unfold devSimulationFinalStatus
    rw [if_pos]
    exact ⟨rfl, by simpa using hsid⟩

/-- Witness for the amended C4 theorem at concrete inputs. -/
theorem dispatch_status_mapping_witness :
    (dispatchInitialStatus .SMS (some { sid := "SM1", status := "Queued" }) = .SENT
      ↔ jsToLowerCase "Queued" ∈ sendAckStatuses) ∧
    (dispatchInitialStatus .SMS (some { sid := "SM1", status := "Queued" }) = .SENT
      ∨ dispatchInitialStatus .SMS (some { sid := "SM1", status := "Queued" }) = .PENDING) ∧
    ("production" ≠ "development" →
      devSimulationFinalStatus "production" (some { sid := "SM1", status := "Queued" })
        (sendCreatedMessage "m1" "c1" "hi" .SMS none "u1"
          (some { sid := "SM1", status := "Queued" }))
        = (sendCreatedMessage "m1" "c1" "hi" .SMS none "u1"
            (some { sid := "SM1", status := "Queued" })).status) ∧
    (jsTruthy (some "SM1") = true →
      devSimulationFinalStatus "development" (some { sid := "SM1", status := "Queued" })
        (sendCreatedMessage "m1" "c1" "hi" .SMS none "u1"
          (some { sid := "SM1", status := "Queued" })) = .DELIVERED) :=
  dispatch_status_mapping .SMS { sid := "SM1", status := "Queued" } "production"
    (sendCreatedMessage "m1" "c1" "hi" .SMS none "u1"
      (some { sid := "SM1", status := "Queued" }))
    (Or.inl rfl)

/-- While an identifier has been seen fewer than maxRequests times in
total, every isAllowed call answers true: the window filter only shrinks
the stored list. -/
theorem runIsAllowedList_all_true (maxR win : Nat) :
    ∀ (ts reqs : List Nat), reqs.length + ts.length ≤ maxR →
    (runIsAllowedList maxR win reqs ts).1 = List.replicate ts.length true := by
  intro ts
  induction ts with
  | nil => intro reqs h; rfl
  | cons t rest ih =>
    intro reqs h
    have hflen : (reqs.filter (fun time => decide (t - time < win))).length ≤ reqs.length :=
      List.length_filter_le _ _
    have hallow : ¬ (maxR ≤ (reqs.filter (fun time => decide (t - time < win))).length) := by
      simp only [List.length_cons] at h
      omega
    simp only [runIsAllowedList, isAllowedList, if_neg hallow, List.length_cons,
      List.replicate_succ]
    refine congrArg (List.cons true) ?_
    have hlen : (reqs.filter (fun time => decide (t - time < win)) ++ [t]).length
        + rest.length ≤ maxR := by
      simp only [List.length_cons] at h
      simp only [List.length_append, List.length_cons, List.length_nil]
      omega
    exact ih _ hlen

/-- When the pending call times are each within the window of every
already stored timestamp and of each other, every call is allowed and the
final stored list is the stored list followed by the call times. -/
theorem runIsAllowedList_state (maxR win : Nat) :
    ∀ (ts reqs : List Nat), reqs.length + ts.length ≤ maxR →
    (∀ x ∈ reqs, ∀ t ∈ ts, t - x < win) →
    List.Pairwise (fun a b => b - a < win) ts →
    (runIsAllowedList maxR win reqs ts).2 = reqs ++ ts := by
  intro ts
  induction ts with
  | nil => intro reqs _ _ _; simp [runIsAllowedList]
  | cons t rest ih =>
    intro reqs h hcross hpair
    have hfilter : reqs.filter (fun time => decide (t - time < win)) = reqs := by
      apply List.filter_eq_self.mpr
      intro x hx
      simpa using hcross x hx t (List.mem_cons_self _ _)
    have hallow : ¬ (maxR ≤ reqs.length) := by
      simp only [List.length_cons] at h
      omega
    simp only [runIsAllowedList, isAllowedList, hfilter, if_neg hallow]
    have hcross' : ∀ x ∈ reqs ++ [t], ∀ u ∈ rest, u - x < win := by
      intro x hx u hu
      rcases List.mem_append.mp hx with hx | hx
      · exact hcross x hx u (List.mem_cons_of_mem _ hu)
      · have hxt : x = t := by simpa using hx
        subst hxt
        exact (List.pairwise_cons.mp hpair).1 u hu
    have hlen : (reqs ++ [t]).length + rest.length ≤ maxR := by
      simp only [List.length_cons] at h
      simp only [List.length_append, List.length_cons, List.length_nil]
      omega
    rw [ih (reqs ++ [t]) hlen hcross' (List.pairwise_cons.mp hpair).2]
    simp

/-- When the windowed check rejects, the stored list is not written
back. -/
theorem isAllowedList_reject_state (maxR win : Nat) (reqs : List Nat) (t : Nat)
    (h : (isAllowedList maxR win reqs t).1 = false) :
    (isAllowedList maxR win reqs t).2 = reqs := by
  unfold isAllowedList at h ⊢
  by_cases hc : maxR ≤ (reqs.filter (fun time => decide (t - time < win))).length
  · rw [if_pos hc]
  · rw [if_neg hc] at h
    simp at h

/-- One isAllowed call agrees with the list-level step on the touched
identifier and preserves the limiter configuration. -/
theorem isAllowed_step (rl : WebhookRateLimiter) (identifier : String) (t : Nat) :
    (rl.isAllowed identifier t).1
      = (isAllowedList rl.maxRequests rl.windowMs (rl.requests identifier) t).1 ∧
    (rl.isAllowed identifier t).2.maxRequests = rl.maxRequests ∧
    (rl.isAllowed identifier t).2.windowMs = rl.windowMs ∧
    (rl.isAllowed identifier t).2.requests identifier
      = (isAllowedList rl.maxRequests rl.windowMs (rl.requests identifier) t).2 := by
  unfold WebhookRateLimiter.isAllowed
  by_cases hb : (isAllowedList rl.maxRequests rl.windowMs (rl.requests identifier) t).1 = true
  · simp [hb]
  · simp only [Bool.not_eq_true] at hb
    simp only [hb, Bool.false_eq_true, if_false]
    exact ⟨by trivial, by trivial, by trivial,
      (isAllowedList_reject_state _ _ _ _ hb).symm⟩

/-- The map-level isAllowed call sequence agrees with the list-level one
on the identifier it touches, and leaves the limiter configuration
unchanged. -/
theorem runIsAllowedCalls_spec (identifier : String) :
    ∀ (ts : List Nat) (rl : WebhookRateLimiter),
    (runIsAllowedCalls rl identifier ts).1
      = (runIsAllowedList rl.maxRequests rl.windowMs (rl.requests identifier) ts).1 ∧
    (runIsAllowedCalls rl identifier ts).2.maxRequests = rl.maxRequests ∧
    (runIsAllowedCalls rl identifier ts).2.windowMs = rl.windowMs ∧
    (runIsAllowedCalls rl identifier ts).2.requests identifier
      = (runIsAllowedList rl.maxRequests rl.windowMs (rl.requests identifier) ts).2 := by
  intro ts
  induction ts with
  | nil => intro rl; exact ⟨rfl, rfl, rfl, rfl⟩
  | cons t rest ih =>
    intro rl
    have hstep := isAllowed_step rl identifier t
    have hih := ih (rl.isAllowed identifier t).2
    rw [hstep.2.1, hstep.2.2.1, hstep.2.2.2] at hih
    simp only [runIsAllowedCalls, runIsAllowedList]
    exact ⟨by rw [hstep.1, hih.1], hih.2.1, hih.2.2.1, hih.2.2.2⟩

/-- C6: the webhook rate limiter with its defaults of 100 requests per
60000 ms window.  For any identifier and any nondecreasing sequence of
100 call times all inside the window ending at now: every one of the 100
calls is allowed, the 101st call at now is rejected, and once the window
has elapsed since all stored requests a further call is allowed again. -/
theorem rate_limiter_window (identifier : String) (ts : List Nat) (now now2 : Nat)
    (hlen : ts.length = 100)
    (hsorted : List.Pairwise (fun a b => a ≤ b) ts)
    (hbound : ∀ t ∈ ts, t ≤ now)
    (hwin : ∀ t ∈ ts, now - t < 60000)
    (helapsed : ∀ t ∈ ts, 60000 ≤ now2 - t) :
    (runIsAllowedCalls webhookRateLimiter identifier ts).1 = List.replicate 100 true ∧
    ((runIsAllowedCalls webhookRateLimiter identifier ts).2.isAllowed identifier now).1
      = false ∧
    ((((runIsAllowedCalls webhookRateLimiter identifier ts).2.isAllowed identifier
        now).2).isAllowed identifier now2).1 = true := by
  have hspec := runIsAllowedCalls_spec identifier ts webhookRateLimiter
  have hmax : webhookRateLimiter.maxRequests = 100 := rfl
  have hwinms : webhookRateLimiter.windowMs = 60000 := rfl
  have hreq : webhookRateLimiter.requests identifier = [] := rfl
  have hpair : List.Pairwise (fun a b => b - a < 60000) ts := by
    refine List.Pairwise.imp_of_mem ?_ hsorted
    intro a b ha hb hab
    have hbn : b ≤ now := hbound b hb
    have : b - a ≤ now - a := Nat.sub_le_sub_right hbn a
    exact lt_of_le_of_lt this (hwin a ha)
  have hstate : (runIsAllowedList 100 60000 [] ts).2 = ts := by
    have := runIsAllowedList_state 100 60000 ts [] (by simp [hlen]) (by simp) hpair
    simpa using this
  have hallcalls : (runIsAllowedCalls webhookRateLimiter identifier ts).1
      = List.replicate 100 true := by
    rw [hspec.1, hmax, hwinms, hreq, runIsAllowedList_all_true 100 60000 ts []
      (by simp [hlen]), hlen]
  have hfinalreq : (runIsAllowedCalls webhookRateLimiter identifier ts).2.requests identifier
      = ts := by
    rw [hspec.2.2.2, hmax, hwinms, hreq, hstate]
  have hfilterfull : ts.filter (fun time => decide (now - time < 60000)) = ts := by
    apply List.filter_eq_self.mpr
    intro x hx
    simpa using hwin x hx
  have hreject : (isAllowedList 100 60000 ts now).1 = false := by
    simp only [isAllowedList, hfilterfull, hlen]
    rfl
  have hrejectstate : (isAllowedList 100 60000 ts now).2 = ts := by
    simp only [isAllowedList, hfilterfull, hlen]
    rfl
  have hrl2 := hspec.2
  have hcall1 : (isAllowedList
      (runIsAllowedCalls webhookRateLimiter identifier ts).2.maxRequests
      (runIsAllowedCalls webhookRateLimiter identifier ts).2.windowMs
      ((runIsAllowedCalls webhookRateLimiter identifier ts).2.requests identifier) now).1
      = false := by
    rw [hrl2.1, hrl2.2.1, hmax, hwinms, hfinalreq]
    exact hreject
  have hreject1 : ((runIsAllowedCalls webhookRateLimiter identifier ts).2.isAllowed
      identifier now).1 = false := by
    unfold WebhookRateLimiter.isAllowed
    exact hcall1
  have hstate1 : ((runIsAllowedCalls webhookRateLimiter identifier ts).2.isAllowed
      identifier now).2 = (runIsAllowedCalls webhookRateLimiter identifier ts).2 := by
    unfold WebhookRateLimiter.isAllowed
    simp only [hcall1, Bool.false_eq_true, if_false]
  have hfilterempty : ts.filter (fun time => decide (now2 - time < 60000)) = [] := by
    apply List.filter_eq_nil_iff.mpr
    intro x hx
    have := helapsed x hx
    simp only [decide_eq_true_eq]
    omega
  refine ⟨hallcalls, hreject1, ?_⟩
  rw [hstate1]
  unfold WebhookRateLimiter.isAllowed
  show (isAllowedList
      (runIsAllowedCalls webhookRateLimiter identifier ts).2.maxRequests
      (runIsAllowedCalls webhookRateLimiter identifier ts).2.windowMs
      ((runIsAllowedCalls webhookRateLimiter identifier ts).2.requests identifier) now2).1
      = true
  rw [hrl2.1, hrl2.2.1, hmax, hwinms, hfinalreq]
  simp [isAllowedList, hfilterempty]

/-- Witness for the C6 theorem: 100 calls at time 0, a rejected call at
time 1, and an allowed call once the 60 second window has elapsed. -/
theorem rate_limiter_window_witness :
    (runIsAllowedCalls webhookRateLimiter "1.2.3.4" (List.replicate 100 0)).1
      = List.replicate 100 true ∧
    ((runIsAllowedCalls webhookRateLimiter "1.2.3.4" (List.replicate 100 0)).2.isAllowed
      "1.2.3.4" 1).1 = false ∧
    ((((runIsAllowedCalls webhookRateLimiter "1.2.3.4" (List.replicate 100 0)).2.isAllowed
      "1.2.3.4" 1).2).isAllowed "1.2.3.4" 60001).1 = true :=
  rate_limiter_window "1.2.3.4" (List.replicate 100 0) 1 60001
    (by simp)
    (List.pairwise_replicate.mpr (Or.inr le_rfl))
    (by intro t ht; rw [List.eq_of_mem_replicate ht]; decide)
    (by intro t ht; rw [List.eq_of_mem_replicate ht]; decide)
    (by intro t ht; rw [List.eq_of_mem_replicate ht]; decide)

/-- C7: a webhook request lacking a signature header, or carrying one
that fails verification, is answered 401 on both webhook endpoints and
performs no store mutation: the Contact and Message tables are returned
unchanged. -/
theorem bad_signature_rejected_without_mutation (sigPresent sigValid : Bool)
    (h : sigPresent = false ∨ sigValid = false)
    (store : InboundStore) (d : InboundWebhookData) (cid mid : String)
    (msgStore : List Message) (p : StatusCallbackPayload) (now : Nat) :
    (∃ c, twilioInboundWebhook store true sigPresent sigValid d cid mid
        = (.authError c, store)) ∧
    (∃ c, twilioStatusCallback msgStore true sigPresent sigValid p now
        = (.authError c, msgStore)) := by
  rcases h with h | h
  · subst h
    exact ⟨⟨"MISSING_SIGNATURE", by simp [twilioInboundWebhook]⟩,
           ⟨"MISSING_SIGNATURE", by simp [twilioStatusCallback]⟩⟩
  · subst h
    cases sigPresent with
    | false =>
      exact ⟨⟨"MISSING_SIGNATURE", by simp [twilioInboundWebhook]⟩,
             ⟨"MISSING_SIGNATURE", by simp [twilioStatusCallback]⟩⟩
    | true =>
      exact ⟨⟨"INVALID_SIGNATURE", by simp [twilioInboundWebhook]⟩,
             ⟨"INVALID_SIGNATURE", by simp [twilioStatusCallback]⟩⟩

/-- Witness for the C7 theorem: a request with no signature header
against empty stores. -/
theorem bad_signature_rejected_without_mutation_witness :
    (∃ c, twilioInboundWebhook ⟨[], []⟩ true false true {} "c1" "m1"
        = (.authError c, ⟨[], []⟩)) ∧
    (∃ c, twilioStatusCallback [] true false true {} 0 = (.authError c, [])) :=
  bad_signature_rejected_without_mutation false true (Or.inl rfl)
    ⟨[], []⟩ {} "c1" "m1" [] {} 0

/-- C9: cancelling a scheduled message owned by the requesting user
succeeds exactly when the row is still PENDING, in which case the stored
row becomes CANCELLED; for SENT, FAILED or already CANCELLED rows the
handler answers 404 and the store is unchanged. -/
theorem cancel_succeeds_iff_pending (store : List ScheduledMessage) (userId id : String)
    (sm : ScheduledMessage) (hmem : sm ∈ store) (hid : sm.id = id)
    (hauth : sm.authorId = userId)
    (hids : (store.map ScheduledMessage.id).Nodup) :
    ((cancelScheduledMessage store userId id).1 = .success ↔ sm.status = .PENDING) ∧
    (sm.status = .PENDING →
      (cancelScheduledMessage store userId id).2
        = store.map (fun x => if x.id == id then { x with status := .CANCELLED } else x)) ∧
    (sm.status ≠ .PENDING →
      cancelScheduledMessage store userId id = (.notFound, store)) := by
  by_cases hp : sm.status = ScheduledStatus.PENDING
  · have hpred : (fun x : ScheduledMessage =>
        x.id == id && x.authorId == userId && x.status == ScheduledStatus.PENDING) sm
        = true := by
      simp [hid, hauth, hp]
    have hsome : (store.find? (fun x =>
        x.id == id && x.authorId == userId && x.status == ScheduledStatus.PENDING)).isSome := by
      rw [List.find?_isSome]
      exact ⟨sm, hmem, hpred⟩
    obtain ⟨y, hy⟩ := Option.isSome_iff_exists.mp hsome
    have hcancel : cancelScheduledMessage store userId id
        = (.success, store.map (fun x =>
            if x.id == id then { x with status := .CANCELLED } else x)) := by
      unfold cancelScheduledMessage
      rw [hy]
    refine ⟨?_, ?_, ?_⟩
    · rw [hcancel]
      exact iff_of_true rfl hp
    · intro _
      rw [hcancel]
    · intro hcon
      exact absurd hp hcon
  · have hnone : store.find? (fun x =>
        x.id == id && x.authorId == userId && x.status == ScheduledStatus.PENDING) = none := by
      rw [List.find?_eq_none]
      intro x hx hpx
      simp only [Bool.and_eq_true, beq_iff_eq] at hpx
      have hxid : x.id = sm.id := by rw [hpx.1.1, hid]
      have hxsm : x = sm := List.inj_on_of_nodup_map hids hx hmem hxid
      rw [hxsm] at hpx
      exact hp hpx.2
    have hcancel : cancelScheduledMessage store userId id = (.notFound, store) := by
      unfold cancelScheduledMessage
      rw [hnone]
    refine ⟨?_, ?_, ?_⟩
    · rw [hcancel]
      exact iff_of_false (by simp) hp
    · intro hcon
      exact absurd hcon hp
    · intro _
      exact hcancel

/-- Witness for the C9 theorem: one PENDING row, cancelled by its
owner. -/
theorem cancel_succeeds_iff_pending_witness :
    ((cancelScheduledMessage
      [{ id := "s1", contactId := "c1", authorId := "u1", content := "x",
         channel := .SMS, scheduledAt := 5, status := .PENDING }] "u1" "s1").1
        = .success
      ↔ ({ id := "s1", contactId := "c1", authorId := "u1", content := "x",
           channel := .SMS, scheduledAt := 5,
           status := .PENDING : ScheduledMessage }).status = .PENDING) ∧
    (({ id := "s1", contactId := "c1", authorId := "u1", content := "x",
        channel := .SMS, scheduledAt := 5,
        status := .PENDING : ScheduledMessage }).status = .PENDING →
      (cancelScheduledMessage
        [{ id := "s1", contactId := "c1", authorId := "u1", content := "x",
           channel := .SMS, scheduledAt := 5, status := .PENDING }] "u1" "s1").2
        = [{ id := "s1", contactId := "c1", authorId := "u1", content := "x",
             channel := .SMS, scheduledAt := 5,
             status := .PENDING : ScheduledMessage }].map (fun x =>
          if x.id == "s1" then { x with status := .CANCELLED } else x)) ∧
    (({ id := "s1", contactId := "c1", authorId := "u1", content := "x",
        channel := .SMS, scheduledAt := 5,
        status := .PENDING : ScheduledMessage }).status ≠ .PENDING →
      cancelScheduledMessage
        [{ id := "s1", contactId := "c1", authorId := "u1", content := "x",
           channel := .SMS, scheduledAt := 5, status := .PENDING }] "u1" "s1"
        = (.notFound,
           [{ id := "s1", contactId := "c1", authorId := "u1", content := "x",
              channel := .SMS, scheduledAt := 5, status := .PENDING }])) :=
  cancel_succeeds_iff_pending
    [{ id := "s1", contactId := "c1", authorId := "u1", content := "x",
       channel := .SMS, scheduledAt := 5, status := .PENDING }] "u1" "s1"
    { id := "s1", contactId := "c1", authorId := "u1", content := "x",
      channel := .SMS, scheduledAt := 5, status := .PENDING }
    (by decide) rfl rfl (by decide)

/-- C8: the schedule POST answers 400 and creates nothing when any of
contactId, content, channel, scheduledAt is missing (falsy) or when the
scheduled time is not strictly after now; with all fields present, a
future time and a contact of the requesting user, it appends exactly one
ScheduledMessage and answers 201 with the created row in status
PENDING. -/
theorem schedule_api_validation (store : List ScheduledMessage) (contacts : List Contact)
    (userId : String) (req : ScheduleRequest) (now : Nat) (freshId : String) :
    ((jsTruthy req.contactId && jsTruthy req.content
        && req.channel.isSome && req.scheduledAt.isSome) = false →
      scheduleMessagePost store contacts userId req now freshId = (.missingFields, store)) ∧
    (∀ t, req.scheduledAt = some t → t ≤ now →
      (jsTruthy req.contactId && jsTruthy req.content
        && req.channel.isSome && req.scheduledAt.isSome) = true →
      scheduleMessagePost store contacts userId req now freshId = (.notInFuture, store)) ∧
    (∀ t c, req.scheduledAt = some t → now < t →
      (jsTruthy req.contactId && jsTruthy req.content
        && req.channel.isSome && req.scheduledAt.isSome) = true →
      c ∈ contacts → c.id = req.contactId.getD "" → c.createdBy = userId →
      ∃ sm, scheduleMessagePost store contacts userId req now freshId
          = (.created sm, store ++ [sm]) ∧ sm.status = .PENDING) := by
  refine ⟨?_, ?_, ?_⟩
  · intro hmiss
    unfold scheduleMessagePost
    rw [hmiss]
    rfl
  · intro t ht hle hall
    unfold scheduleMessagePost
    rw [hall]
    simp only [Bool.not_true, Bool.false_eq_true, if_false]
    rw [ht]
    simp only [Option.getD_some]
    rw [if_pos hle]
  · intro t c ht hgt hall hcmem hcid hcuser
    unfold scheduleMessagePost
    rw [hall]
    simp only [Bool.not_true, Bool.false_eq_true, if_false]
    rw [ht]
    simp only [Option.getD_some]
    rw [if_neg (by omega)]
    have hpred : (fun x : Contact =>
        x.id == req.contactId.getD "" && x.createdBy == userId) c = true := by
      simp [hcid, hcuser]
    have hsome : (contacts.find? (fun x =>
        x.id == req.contactId.getD "" && x.createdBy == userId)).isSome := by
      rw [List.find?_isSome]
      exact ⟨c, hcmem, hpred⟩
    obtain ⟨y, hy⟩ := Option.isSome_iff_exists.mp hsome
    rw [hy]
    exact ⟨_, rfl, rfl⟩

/-- Witness for the C8 theorem: a complete request one millisecond in the
future for an owned contact. -/
theorem schedule_api_validation_witness :
    ∃ sm, scheduleMessagePost []
        [{ id := "c1", name := "N", phone := some "+1", createdBy := "u1" }] "u1"
        { contactId := some "c1", content := some " hi ", channel := some .SMS,
          scheduledAt := some 10 } 5 "s9"
        = (.created sm, [] ++ [sm]) ∧ sm.status = .PENDING :=
  (schedule_api_validation []
    [{ id := "c1", name := "N", phone := some "+1", createdBy := "u1" }] "u1"
    { contactId := some "c1", content := some " hi ", channel := some .SMS,
      scheduledAt := some 10 } 5 "s9").2.2
    10 { id := "c1", name := "N", phone := some "+1", createdBy := "u1" }
    rfl (by decide) (by decide) (by decide) rfl rfl

/-- C10: an inbound webhook request passing the rate limit, the
signature check and the schema check is persisted as exactly one new
Message with direction INBOUND and status DELIVERED (never PENDING or
SENT); when no contact carries the sender phone number, a new Contact
named after that number is created and the stored Message references
it, otherwise the contact table is unchanged. -/
theorem inbound_webhook_stores_delivered (store : InboundStore) (d : InboundWebhookData)
    (cid mid : String)
    (hsid : d.messageSid.isSome = true) (hfrom : d.fromField.isSome = true)
    (hto : d.toField.isSome = true) :
    ∃ msg,
      (twilioInboundWebhook store true true true d cid mid).1 = .xmlOk ∧
      (twilioInboundWebhook store true true true d cid mid).2.messages
        = store.messages ++ [msg] ∧
      msg.direction = .INBOUND ∧ msg.status = .DELIVERED ∧
      ((∃ c ∈ store.contacts, c.phone = some (parseIncomingWebhook d).fromAddr) →
        (twilioInboundWebhook store true true true d cid mid).2.contacts
          = store.contacts) ∧
      ((¬ ∃ c ∈ store.contacts, c.phone = some (parseIncomingWebhook d).fromAddr) →
        ∃ newContact,
          (twilioInboundWebhook store true true true d cid mid).2.contacts
            = store.contacts ++ [newContact] ∧
          newContact.name = "Unknown (" ++ (parseIncomingWebhook d).fromAddr ++ ")" ∧
          newContact.phone = some (parseIncomingWebhook d).fromAddr ∧
          msg.contactId = newContact.id) := by
  have hschema : (d.messageSid.isSome && d.fromField.isSome && d.toField.isSome) = true := by
    rw [hsid, hfrom, hto]
    rfl
  cases hfc : store.contacts.find?
      (fun c => c.phone == some (parseIncomingWebhook d).fromAddr) with
  | some c =>
    have hrun : twilioInboundWebhook store true true true d cid mid
        = (.xmlOk, { store with messages := store.messages
            ++ [inboundMessage mid c.id (parseIncomingWebhook d)] }) := by
      unfold twilioInboundWebhook
      simp only [Bool.not_true, Bool.false_eq_true, if_false, hschema, Bool.not_false,
        if_true, hfc]
    refine ⟨inboundMessage mid c.id (parseIncomingWebhook d),
      by rw [hrun], by rw [hrun], rfl, rfl, ?_, ?_⟩
    · intro _
      rw [hrun]
    · intro hcon
      exfalso
      apply hcon
      refine ⟨c, List.mem_of_find?_eq_some hfc, ?_⟩
      have := List.find?_some hfc
      simpa using this
  | none =>
    have hrun : twilioInboundWebhook store true true true d cid mid
        = (.xmlOk,
           { contacts := store.contacts
               ++ [{ id := cid,
                     name := "Unknown (" ++ (parseIncomingWebhook d).fromAddr ++ ")",
                     phone := some (parseIncomingWebhook d).fromAddr,
                     createdBy := "system" }]
             messages := store.messages
               ++ [inboundMessage mid cid (parseIncomingWebhook d)] }) := by
      unfold twilioInboundWebhook
      simp only [Bool.not_true, Bool.false_eq_true, if_false, hschema, Bool.not_false,
        if_true, hfc]
    refine ⟨inboundMessage mid cid (parseIncomingWebhook d),
      by rw [hrun], by rw [hrun], rfl, rfl, ?_, ?_⟩
    · intro hcon
      exfalso
      obtain ⟨c, hcmem, hcphone⟩ := hcon
      have := List.find?_eq_none.mp hfc c hcmem
      apply this
      simp [hcphone]
    · intro _
      exact ⟨_, by rw [hrun], rfl, rfl, rfl⟩

/-- Witness for the C10 theorem: a WhatsApp message from an unknown
number against empty stores. -/
theorem inbound_webhook_stores_delivered_witness :
    ∃ msg,
      (twilioInboundWebhook ⟨[], []⟩ true true true
        { messageSid := some "SMx", fromField := some "whatsapp:+123",
          toField := some "whatsapp:+999", bodyField := some "hello" } "c9" "m9").1
        = .xmlOk ∧
      (twilioInboundWebhook ⟨[], []⟩ true true true
        { messageSid := some "SMx", fromField := some "whatsapp:+123",
          toField := some "whatsapp:+999", bodyField := some "hello" } "c9" "m9").2.messages
        = ([] : List Message) ++ [msg] ∧
      msg.direction = .INBOUND ∧ msg.status = .DELIVERED ∧
      ((∃ c ∈ ([] : List Contact), c.phone = some (parseIncomingWebhook
          { messageSid := some "SMx", fromField := some "whatsapp:+123",
            toField := some "whatsapp:+999", bodyField := some "hello" }).fromAddr) →
        (twilioInboundWebhook ⟨[], []⟩ true true true
          { messageSid := some "SMx", fromField := some "whatsapp:+123",
            toField := some "whatsapp:+999", bodyField := some "hello" } "c9" "m9").2.contacts
          = ([] : List Contact)) ∧
      ((¬ ∃ c ∈ ([] : List Contact), c.phone = some (parseIncomingWebhook
          { messageSid := some "SMx", fromField := some "whatsapp:+123",
            toField := some "whatsapp:+999", bodyField := some "hello" }).fromAddr) →
        ∃ newContact,
          (twilioInboundWebhook ⟨[], []⟩ true true true
            { messageSid := some "SMx", fromField := some "whatsapp:+123",
              toField := some "whatsapp:+999",
              bodyField := some "hello" } "c9" "m9").2.contacts
            = ([] : List Contact) ++ [newContact] ∧
          newContact.name = "Unknown (" ++ (parseIncomingWebhook
            { messageSid := some "SMx", fromField := some "whatsapp:+123",
              toField := some "whatsapp:+999", bodyField := some "hello" }).fromAddr ++ ")" ∧
          newContact.phone = some (parseIncomingWebhook
            { messageSid := some "SMx", fromField := some "whatsapp:+123",
              toField := some "whatsapp:+999", bodyField := some "hello" }).fromAddr ∧
          msg.contactId = newContact.id) :=
  inbound_webhook_stores_delivered ⟨[], []⟩
    { messageSid := some "SMx", fromField := some "whatsapp:+123",
      toField := some "whatsapp:+999", bodyField := some "hello" } "c9" "m9"
    rfl rfl rfl

end UnifiedInbox
